import Mathlib

/-!
Verification of the tree-selection MWIS optimizer
(`tree_selection_mwis_optimizer.py`): shallow embedding of the distance
primitive, the spatial conflict-graph builder, the MWIS model encoder and
decoder, and the surrounding script phases, together with theorems settling
the specification claims.
-/

/-! ## Distance primitive (source lines 42-50) -/

/-- Earth radius in meters, source line 43 (`R = 6371000.0`). -/
def earthRadius : ℝ := 6371000

/-- The haversine distance of source lines 45-50, on radian inputs:
`a = sin(dlat/2)^2 + cos(lat1)*cos(lat2)*sin(dlon/2)^2`,
result `2 * R * arcsin(sqrt a)`. -/
noncomputable def haversine_m (lat1 lon1 lat2 lon2 : ℝ) : ℝ :=
  2 * earthRadius *
    Real.arcsin (Real.sqrt (Real.sin ((lat2 - lat1) / 2) ^ 2 +
      Real.cos lat1 * Real.cos lat2 * Real.sin ((lon2 - lon1) / 2) ^ 2))

/-- Degrees-to-radians conversion of source line 42 (`np.radians`). -/
noncomputable def deg2rad (x : ℝ) : ℝ := x * (Real.pi / 180)

/-- The distance primitive on degree coordinates, as the script uses it:
coordinates are converted to radians (line 42) and fed to `haversine_m`. -/
noncomputable def distDeg (a b : ℝ × ℝ) : ℝ :=
  haversine_m (deg2rad a.1) (deg2rad a.2) (deg2rad b.1) (deg2rad b.2)

theorem haversine_symm (lat1 lon1 lat2 lon2 : ℝ) :
    haversine_m lat1 lon1 lat2 lon2 = haversine_m lat2 lon2 lat1 lon1 := by
  unfold haversine_m
  have h1 : lat1 - lat2 = -(lat2 - lat1) := by ring
  have h2 : lon1 - lon2 = -(lon2 - lon1) := by ring
  rw [h1, h2, neg_div, neg_div, Real.sin_neg, Real.sin_neg]
  ring_nf

theorem haversine_self (lat lon : ℝ) : haversine_m lat lon lat lon = 0 := by
  unfold haversine_m
  simp

theorem haversine_nonneg (lat1 lon1 lat2 lon2 : ℝ) :
    0 ≤ haversine_m lat1 lon1 lat2 lon2 := by
  unfold haversine_m
  have hr : (0:ℝ) ≤ 2 * earthRadius := by norm_num [earthRadius]
  exact mul_nonneg hr (Real.arcsin_nonneg.mpr (Real.sqrt_nonneg _))

theorem distDeg_pole : distDeg (90, 0) (90, 90) = 0 := by
  unfold distDeg deg2rad haversine_m
  have h : (90:ℝ) * (Real.pi / 180) = Real.pi / 2 := by ring
  simp [h, Real.cos_pi_div_two]

/-! ## Spatial conflict-graph builder (source lines 53-66)

The loop at lines 59-64 computes, for each `i`, the distances from point `i`
to all points `j > i` (`di = haversine_m(coords[i], coords[i+1:, :])`), takes
`conflict_indices = np.where(di < SPACING_M)[0]` and appends `i + 1 + c` to
`neighbors[i]` for each such offset `c`, in increasing order of `c`.  The
builder is generic in the distance function `d`; the script instantiates it
with the haversine distance over the radian coordinate array. -/

/-- Row `i` of the `neighbors` list: offsets `c` below `N - (i+1)` whose
distance `d i (i+1+c)` is strictly below the threshold, mapped to `i+1+c`. -/
def neighborsRow {α : Type} [LinearOrder α] (d : ℕ → ℕ → α) (S : α) (N i : ℕ) :
    List ℕ :=
  ((List.range (N - (i + 1))).filter (fun c => decide (d i (i + 1 + c) < S))).map
    (fun c => i + 1 + c)

/-- The `neighbors` list of lists built by the loop at source lines 59-64. -/
def neighborsList {α : Type} [LinearOrder α] (d : ℕ → ℕ → α) (S : α) (N : ℕ) :
    List (List ℕ) :=
  (List.range N).map (neighborsRow d S N)

/-- The conflict set as an edge list: pair `(i, j)` for each `i` and each
`j ∈ neighbors[i]`, in the iteration order of the constraint loop at source
lines 93-95. -/
def conflictPairs {α : Type} [LinearOrder α] (d : ℕ → ℕ → α) (S : α) (N : ℕ) :
    List (ℕ × ℕ) :=
  (List.range N).flatMap (fun i => (neighborsRow d S N i).map (fun j => (i, j)))

/-- Total conflict count, source line 66:
`total_conflicts = sum(len(n) for n in neighbors)`. -/
def total_conflicts (nb : List (List ℕ)) : ℕ := (nb.map List.length).sum

/-- The distance function the script feeds to the builder: haversine over the
radian coordinate array `coords` (source lines 42 and 61). -/
noncomputable def coordDist (coords : ℕ → ℝ × ℝ) (i j : ℕ) : ℝ :=
  haversine_m (coords i).1 (coords i).2 (coords j).1 (coords j).2

theorem mem_neighborsRow {α : Type} [LinearOrder α] (d : ℕ → ℕ → α) (S : α)
    (N i j : ℕ) : j ∈ neighborsRow d S N i ↔ i < j ∧ j < N ∧ d i j < S := by
  simp only [neighborsRow, List.mem_map, List.mem_filter, List.mem_range,
    decide_eq_true_eq]
  constructor
  · rintro ⟨c, ⟨hc, hd⟩, rfl⟩
    exact ⟨by omega, by omega, hd⟩
  · rintro ⟨hij, hjN, hd⟩
    refine ⟨j - (i + 1), ⟨by omega, ?_⟩, by omega⟩
    have h : i + 1 + (j - (i + 1)) = j := by omega
    rw [h]; exact hd

theorem mem_conflictPairs {α : Type} [LinearOrder α] (d : ℕ → ℕ → α) (S : α)
    (N i j : ℕ) :
    (i, j) ∈ conflictPairs d S N ↔ i < j ∧ j < N ∧ d i j < S := by
  simp only [conflictPairs, List.mem_flatMap, List.mem_map, List.mem_range]
  constructor
  · rintro ⟨a, ha, b, hb, heq⟩
    obtain ⟨h1, h2⟩ := Prod.mk.injEq a b i j ▸ heq
    subst h1; subst h2
    exact (mem_neighborsRow d S N a b).mp hb
  · rintro ⟨hij, hjN, hd⟩
    exact ⟨i, by omega, j, (mem_neighborsRow d S N i j).mpr ⟨hij, hjN, hd⟩, rfl⟩

theorem neighborsRow_sorted {α : Type} [LinearOrder α] (d : ℕ → ℕ → α) (S : α)
    (N i : ℕ) : (neighborsRow d S N i).Sorted (· < ·) := by
  unfold neighborsRow
  rw [List.Sorted, List.pairwise_map]
  exact ((List.pairwise_lt_range _).filter _).imp (fun h => by omega)

theorem conflictPairs_nodup {α : Type} [LinearOrder α] (d : ℕ → ℕ → α) (S : α)
    (N : ℕ) : (conflictPairs d S N).Nodup := by
  unfold conflictPairs
  rw [List.nodup_flatMap]
  constructor
  · intro i _
    exact ((neighborsRow_sorted d S N i).nodup).map
      (fun a b h => by simpa using (Prod.mk.injEq i a i b ▸ h).2)
  · refine (List.pairwise_lt_range N).imp ?_
    intro a b hab p hpa hpb
    simp only [List.mem_map] at hpa hpb
    obtain ⟨x, _, hx⟩ := hpa
    obtain ⟨y, _, hy⟩ := hpb
    rw [← hx] at hy
    have := (Prod.mk.injEq a x b y ▸ hy.symm).1
    omega

/-! ## MWIS model encoder (source lines 82-99) and decoder (line 112)

The script creates `N` boolean decision variables (line 87), the objective
`maximize sum(W[i] * y[i])` (line 90), and one constraint `y[i] + y[j] <= 1`
for each `i` and each `j in neighbors[i]` (lines 93-95).  Solver values are
modelled as rationals; the decoder at line 112 sets
`keep_flags[i] = int(y[i].solution_value() > 0.5)`. -/

/-- A binary-variable linear model: variable count, objective weights, and
one pairwise constraint `y[c.1] + y[c.2] <= 1` per listed pair. -/
structure LPModel where
  numVars : ℕ
  weights : ℕ → ℚ
  constraints : List (ℕ × ℕ)

/-- Model construction of source lines 87-95: `N` binary variables, objective
weights `W`, and a constraint per `(i, j)` with `j ∈ neighbors[i]`, emitted in
loop order. -/
def buildModel (W : ℕ → ℚ) (nb : List (List ℕ)) (N : ℕ) : LPModel :=
  { numVars := N
    weights := W
    constraints :=
      (List.range N).flatMap (fun i => (nb.getD i []).map (fun j => (i, j))) }

/-- Objective value of an assignment, following the generator expression at
source line 90: `solver.Sum(W[i] * y[i] for i in range(N))`. -/
def objValue (m : LPModel) (v : ℕ → ℚ) : ℚ :=
  ((List.range m.numVars).map (fun i => m.weights i * v i)).sum

/-- An assignment is feasible for a model when every variable is binary and
every emitted constraint `y[i] + y[j] <= 1` holds. -/
def feasibleFor (m : LPModel) (v : ℕ → ℚ) : Prop :=
  (∀ i, v i = 0 ∨ v i = 1) ∧ ∀ c ∈ m.constraints, v c.1 + v c.2 ≤ 1

/-- An assignment is optimal when it is feasible and its objective value is
maximal among feasible assignments. -/
def isOptimal (m : LPModel) (v : ℕ → ℚ) : Prop :=
  feasibleFor m v ∧ ∀ u, feasibleFor m u → objValue m u ≤ objValue m v

/-- Solver result statuses of the external ILP engine
(`pywraplp.Solver.Solve`). -/
inductive SolverStatus where
  | OPTIMAL
  | FEASIBLE
  | INFEASIBLE
  | UNBOUNDED
  | ABNORMAL
  | NOT_SOLVED
deriving DecidableEq

/-- Decoder of source line 112:
`keep_flags = [int(y[i].solution_value() > 0.5) for i in range(N)]`. -/
def keep_flags (v : ℕ → ℚ) (N : ℕ) : List Bool :=
  (List.range N).map (fun i => decide (v i > 1/2))

/-- Post-solve behaviour of source lines 102-114: the script prints a success
message when the status is `OPTIMAL` and a warning otherwise, then
unconditionally decodes `keep_flags` from the solution values.  No status
leads to an error: the result type records that the script never raises after
`Solve` returns. -/
def postSolve (_status : SolverStatus) (v : ℕ → ℚ) (N : ℕ) :
    Except String (List Bool) :=
  Except.ok (keep_flags v N)

/-- Graph-construction phase entry, source lines 53-66: the script performs no
precondition validation before or during the loop, so this phase always
returns the built `neighbors` structure and never an error. -/
def buildPhase {α : Type} [LinearOrder α] (d : ℕ → ℕ → α) (S : α) (N : ℕ) :
    Except String (List (List ℕ)) :=
  Except.ok (neighborsList d S N)

theorem buildModel_constraints_eq {α : Type} [LinearOrder α] (d : ℕ → ℕ → α)
    (S : α) (N : ℕ) (W : ℕ → ℚ) :
    (buildModel W (neighborsList d S N) N).constraints = conflictPairs d S N := by
  unfold buildModel conflictPairs
  simp only []
  apply List.flatMap_congr
  intro x hx
  congr 1
  rw [neighborsList, List.getD_eq_getElem?_getD, List.getElem?_map,
    List.getElem?_range (List.mem_range.mp hx)]
  rfl

/-! ## Weight-column selection (source lines 71-78) and CSV export (line 128)

The input table may carry columns `W`, `H_m` and `H`.  Weight selection uses
`W` when present, otherwise `H_m`, otherwise raises a `ValueError`.  The CSV
export at line 128 selects the columns `H, H_m, W, keep, remove, geometry`;
pandas column selection raises a missing-column `KeyError` unless every named
column is present (`keep`, `remove` and `geometry` always exist there: they
were assigned at lines 113-114 and by the GeoDataFrame itself). -/

/-- The loaded table: which of the optional columns `H`, `H_m`, `W` are
present, and the numeric contents of the weight-bearing ones. -/
structure TreeTable where
  hasH : Bool
  hasHm : Bool
  hasW : Bool
  wCol : ℕ → ℚ
  hmCol : ℕ → ℚ

/-- Weight selection of source lines 71-78: use `W` if available, else `H_m`,
else raise `ValueError`. -/
def selectWeights (t : TreeTable) : Except String (ℕ → ℚ) :=
  if t.hasW then Except.ok t.wCol
  else if t.hasHm then Except.ok t.hmCol
  else Except.error "Data must contain either W or H_m column for optimization."

/-- CSV export of source line 128: succeeds only when the columns `H`, `H_m`
and `W` are all present, otherwise fails with a missing-column error. -/
def exportCsv (t : TreeTable) : Except String Unit :=
  if t.hasH && t.hasHm && t.hasW then Except.ok ()
  else Except.error "missing column"

theorem keep_flags_getD (v : ℕ → ℚ) (N i : ℕ) (h : i < N) :
    (keep_flags v N).getD i false = decide (v i > 1/2) := by
  unfold keep_flags
  rw [List.getD_eq_getElem?_getD, List.getElem?_map, List.getElem?_range h]
  rfl

theorem sum_map_list_range (f : ℕ → ℚ) (N : ℕ) :
    ((List.range N).map f).sum = ∑ i ∈ Finset.range N, f i := by
  induction N with
  | zero => simp
  | succ n ih =>
    rw [List.range_succ, List.map_append, List.sum_append,
      Finset.sum_range_succ, ih]
    simp

theorem objValue_buildModel (W : ℕ → ℚ) (nb : List (List ℕ)) (N : ℕ)
    (v : ℕ → ℚ) :
    objValue (buildModel W nb N) v = ∑ i ∈ Finset.range N, W i * v i := by
  unfold objValue buildModel
  exact sum_map_list_range (fun i => W i * v i) N

theorem conflictPairs_length {α : Type} [LinearOrder α] (d : ℕ → ℕ → α)
    (S : α) (N : ℕ) :
    (conflictPairs d S N).length = total_conflicts (neighborsList d S N) := by
  unfold conflictPairs total_conflicts neighborsList
  rw [List.length_flatMap, List.map_map]
  congr 1
  apply List.map_congr_left
  intro i _
  simp [Function.comp]

/-! ## Claim theorems -/

/-- C1: end-to-end independent-set invariant.  For every stored conflict pair
`(i, j)`, in any result whose solver status is OPTIMAL or FEASIBLE — so, by
the external-solver contract, the returned values satisfy every emitted
constraint `y[i] + y[j] <= 1` — the decoded labeling never has both `keep[i]`
and `keep[j]` true. -/
theorem claim_C1_independent_set_invariant {α : Type} [LinearOrder α]
    (d : ℕ → ℕ → α) (S : α) (N : ℕ) (W : ℕ → ℚ) (v : ℕ → ℚ)
    (status : SolverStatus)
    (_hst : status = SolverStatus.OPTIMAL ∨ status = SolverStatus.FEASIBLE)
    (hsat : ∀ c ∈ (buildModel W (neighborsList d S N) N).constraints,
      v c.1 + v c.2 ≤ 1)
    (i j : ℕ) (hmem : (i, j) ∈ conflictPairs d S N) :
    ¬((keep_flags v N).getD i false = true ∧
      (keep_flags v N).getD j false = true) := by
  rintro ⟨hi, hj⟩
  have hc : v i + v j ≤ 1 :=
    hsat (i, j) (by rw [buildModel_constraints_eq]; exact hmem)
  obtain ⟨hij, hjN, -⟩ := (mem_conflictPairs d S N i j).mp hmem
  have hiN : i < N := lt_trans hij hjN
  rw [keep_flags_getD v N i hiN, decide_eq_true_eq] at hi
  rw [keep_flags_getD v N j hjN, decide_eq_true_eq] at hj
  linarith

theorem claim_C1_witness :
    ¬(((keep_flags (fun i => if i = 0 then 1 else 0) 2).getD 0 false = true) ∧
      ((keep_flags (fun i => if i = 0 then 1 else 0) 2).getD 1 false = true)) :=
  claim_C1_independent_set_invariant (fun _ _ => (5 : ℤ)) 10 2 (fun _ => 1)
    (fun i => if i = 0 then 1 else 0) SolverStatus.OPTIMAL (Or.inl rfl)
    (fun c hc => by
      have hc2 : c ∈ [((0 : ℕ), (1 : ℕ))] := hc
      have hc3 : c = (0, 1) := by simpa using hc2
      subst hc3
      norm_num)
    0 1 (by decide)

/-- C2: conflict-set correctness with strict inequality.  For `i < j < N`,
`(i, j)` is in the built conflict set iff the haversine distance between the
radian coordinates of points `i` and `j` is strictly below the threshold; a
pair at exactly the threshold is therefore not a conflict. -/
theorem claim_C2_conflict_set_iff (coords : ℕ → ℝ × ℝ) (S : ℝ) (N i j : ℕ)
    (hij : i < j) (hjN : j < N) :
    ((i, j) ∈ conflictPairs (coordDist coords) S N ↔
      haversine_m (coords i).1 (coords i).2 (coords j).1 (coords j).2 < S) := by
  rw [mem_conflictPairs]
  constructor
  · rintro ⟨-, -, hd⟩
    exact hd
  · intro hd
    exact ⟨hij, hjN, hd⟩

theorem claim_C2_witness :
    ((0, 1) ∈ conflictPairs (coordDist (fun _ => ((0 : ℝ), (0 : ℝ)))) 10 2 ↔
      haversine_m 0 0 0 0 < 10) :=
  claim_C2_conflict_set_iff (fun _ => (0, 0)) 10 2 0 1 (by decide) (by decide)

/-- C3 counterexample: the distance primitive is zero at the two distinct
well-formed degree coordinate pairs `(90, 0)` and `(90, 90)` (the north pole
at two longitudes), refuting the claimed "zero only if coordinates are
identical" direction. -/
theorem claim_C3_counterexample :
    distDeg (90, 0) (90, 90) = 0 ∧ ((90 : ℝ), (0 : ℝ)) ≠ ((90 : ℝ), (90 : ℝ)) := by
  refine ⟨distDeg_pole, fun h => ?_⟩
  have h2 := congrArg Prod.snd h
  norm_num at h2

/-- C3 (amended): the distance primitive is symmetric, and it is zero on
identical coordinates; the converse zero-implies-identical direction is
false. -/
theorem claim_C3_amended :
    (∀ a b : ℝ × ℝ, distDeg a b = distDeg b a) ∧
    (∀ a : ℝ × ℝ, distDeg a a = 0) := by
  constructor
  · intro a b
    exact haversine_symm _ _ _ _
  · intro a
    exact haversine_self _ _

/-- C4: encoder model shape.  The emitted model has exactly `N` binary
variables, its constraint list is exactly the conflict-pair list (one
constraint `y[i] + y[j] <= 1` per conflict pair), its length equals the
diagnostic total conflict count, and the objective evaluates to
`sum over i of weight[i] * variable[i]`. -/
theorem claim_C4_model_shape {α : Type} [LinearOrder α] (d : ℕ → ℕ → α)
    (S : α) (N : ℕ) (W : ℕ → ℚ) (v : ℕ → ℚ) :
    (buildModel W (neighborsList d S N) N).numVars = N ∧
    (buildModel W (neighborsList d S N) N).constraints = conflictPairs d S N ∧
    (buildModel W (neighborsList d S N) N).constraints.length =
      total_conflicts (neighborsList d S N) ∧
    objValue (buildModel W (neighborsList d S N) N) v =
      ∑ i ∈ Finset.range N, W i * v i := by
  refine ⟨rfl, buildModel_constraints_eq d S N W, ?_, objValue_buildModel W _ N v⟩
  rw [buildModel_constraints_eq d S N W]
  exact conflictPairs_length d S N

/-- C5: decode thresholding.  For every index below `N` and solver value in
`[0, 1]`, the decoded flag is true exactly when the value is strictly above
`0.5`; in particular `0.9999997` decodes to true and exactly `0.5` decodes to
false. -/
theorem claim_C5_decode_threshold :
    (∀ (v : ℕ → ℚ) (N i : ℕ), i < N → 0 ≤ v i → v i ≤ 1 →
      ((keep_flags v N).getD i false = true ↔ v i > 1/2)) ∧
    keep_flags (fun _ => 9999997/10000000) 1 = [true] ∧
    keep_flags (fun _ => 1/2) 1 = [false] := by
  refine ⟨?_, by norm_num [keep_flags, List.range_succ],
    by norm_num [keep_flags, List.range_succ]⟩
  intro v N i hiN h0 h1
  rw [keep_flags_getD v N i hiN, decide_eq_true_eq]

theorem claim_C5_witness :
    ((keep_flags (fun _ => (1 : ℚ)) 1).getD 0 false = true ↔ (1 : ℚ) > 1/2) :=
  claim_C5_decode_threshold.1 (fun _ => 1) 1 0 (by decide) (by norm_num)
    (by norm_num)

/-- C6 counterexample: with solver status INFEASIBLE the post-solve step of
the script still returns a decoded labeling — here the all-false labeling —
instead of surfacing an optimization-failure condition. -/
theorem claim_C6_counterexample :
    postSolve SolverStatus.INFEASIBLE (fun _ => 0) 2 =
      Except.ok [false, false] := by
  norm_num [postSolve, keep_flags, List.range_succ]

/-- C6 (amended): for every solver status, including those indicating that no
feasible or optimal solution was found, the script decodes and returns the
thresholded keep flags from the current solution values; a non-optimal status
only changes the printed message, and no failure condition reaches the
caller. -/
theorem claim_C6_amended (status : SolverStatus) (v : ℕ → ℚ) (N i : ℕ)
    (hiN : i < N) :
    postSolve status v N = Except.ok (keep_flags v N) ∧
    (keep_flags v N).getD i false = decide (v i > 1/2) :=
  ⟨rfl, keep_flags_getD v N i hiN⟩

theorem claim_C6_witness :
    postSolve SolverStatus.NOT_SOLVED (fun _ => 1) 1 =
      Except.ok (keep_flags (fun _ => 1) 1) ∧
    (keep_flags (fun _ => (1 : ℚ)) 1).getD 0 false = decide ((1 : ℚ) > 1/2) :=
  claim_C6_amended SolverStatus.NOT_SOLVED (fun _ => 1) 1 0 (by decide)

/-- C7: canonical conflict-pair representation.  Every stored pair satisfies
`i < j` (hence no self-pairs), the pair list has no duplicates by
construction, and each row of higher-indexed conflicting neighbors is sorted
and strictly above its own index. -/
theorem claim_C7_canonical_pairs {α : Type} [LinearOrder α] (d : ℕ → ℕ → α)
    (S : α) (N : ℕ) :
    (∀ p ∈ conflictPairs d S N, p.1 < p.2) ∧
    (conflictPairs d S N).Nodup ∧
    (∀ i, (neighborsRow d S N i).Sorted (· < ·)) ∧
    (∀ i, ∀ j ∈ neighborsRow d S N i, i < j) := by
  refine ⟨?_, conflictPairs_nodup d S N, fun i => neighborsRow_sorted d S N i, ?_⟩
  · rintro ⟨i, j⟩ hp
    exact ((mem_conflictPairs d S N i j).mp hp).1
  · intro i j hj
    exact ((mem_neighborsRow d S N i j).mp hj).1

theorem claim_C7_witness : ((0 : ℕ), (1 : ℕ)).1 < ((0 : ℕ), (1 : ℕ)).2 :=
  (claim_C7_canonical_pairs (fun _ _ => (5 : ℤ)) 10 2).1 (0, 1) (by decide)

/-- C8 counterexample: with the non-positive threshold `-1` the
graph-construction phase is not rejected with a validation error; it builds
and returns the (empty) conflict structure. -/
theorem claim_C8_counterexample :
    buildPhase (fun _ _ => (5 : ℤ)) (-1) 2 = Except.ok [[], []] := rfl

/-- C8 (amended): the script performs no precondition validation.  The
graph-construction phase never fails; for any non-negative distance function
(the haversine distances in particular are non-negative) and a non-positive
threshold, it simply returns the conflict-free neighbor structure instead of
rejecting the input. -/
theorem claim_C8_amended {α : Type} [LinearOrder α] [Zero α] (d : ℕ → ℕ → α) (S : α)
    (N : ℕ) (hd : ∀ i j, 0 ≤ d i j) (hS : S ≤ 0) :
    buildPhase d S N =
      Except.ok ((List.range N).map (fun _ => ([] : List ℕ))) := by
  unfold buildPhase neighborsList
  have hrow : ∀ i, neighborsRow d S N i = [] := by
    intro i
    unfold neighborsRow
    rw [List.map_eq_nil_iff, List.filter_eq_nil_iff]
    intro c _
    simp only [decide_eq_true_eq]
    exact not_lt.mpr (le_trans hS (hd i (i + 1 + c)))
  exact congrArg Except.ok (List.map_congr_left (fun i _ => hrow i))

theorem claim_C8_witness :
    buildPhase (fun _ _ => (5 : ℤ)) 0 1 =
      Except.ok ((List.range 1).map (fun _ => ([] : List ℕ))) :=
  claim_C8_amended (fun _ _ => 5) 0 1 (fun _ _ => by norm_num) (le_refl 0)

/-- C9 counterexample: for a single point whose weight is `0`, the all-zero
assignment is optimal for the emitted model (the objective is identically
zero), and it decodes to `keep = [false]`, not `keep[0] = true`. -/
theorem claim_C9_counterexample :
    isOptimal
      (buildModel (fun _ => 0) (neighborsList (fun _ _ => (5 : ℤ)) 10 1) 1)
      (fun _ => 0) ∧
    keep_flags (fun _ => 0) 1 = [false] := by
  refine ⟨⟨⟨fun i => Or.inl rfl, fun c hc => absurd hc (List.not_mem_nil c)⟩,
    fun u hu => ?_⟩, by norm_num [keep_flags, List.range_succ]⟩
  rw [objValue_buildModel, objValue_buildModel]
  simp

/-- C9 (amended): `N = 0` yields an empty conflict set and an empty decoded
result, and `N = 1` yields an empty conflict set; when the single weight is
strictly positive, every optimal assignment for the emitted model decodes to
`keep = [true]` (with weight `0` the decoded flag may be false). -/
theorem claim_C9_amended {α : Type} [LinearOrder α] (d : ℕ → ℕ → α) (S : α)
    (W : ℕ → ℚ) (v : ℕ → ℚ) (hW : 0 < W 0)
    (hopt : isOptimal (buildModel W (neighborsList d S 1) 1) v) :
    conflictPairs d S 0 = [] ∧ keep_flags v 0 = [] ∧
    conflictPairs d S 1 = [] ∧ keep_flags v 1 = [true] := by
  refine ⟨rfl, rfl, rfl, ?_⟩
  obtain ⟨⟨hbin, -⟩, hmax⟩ := hopt
  have hu : feasibleFor (buildModel W (neighborsList d S 1) 1) (fun _ => 1) :=
    ⟨fun i => Or.inr rfl, fun c hc => absurd hc (List.not_mem_nil c)⟩
  have hle := hmax _ hu
  rw [objValue_buildModel, objValue_buildModel] at hle
  simp only [Finset.sum_range_one, mul_one] at hle
  rcases hbin 0 with h0 | h1
  · rw [h0, mul_zero] at hle
    linarith
  · norm_num [keep_flags, List.range_succ, h1]

theorem claim_C9_witness :
    conflictPairs (fun _ _ => (5 : ℤ)) 10 0 = [] ∧
    keep_flags (fun _ => (1 : ℚ)) 0 = [] ∧
    conflictPairs (fun _ _ => (5 : ℤ)) 10 1 = [] ∧
    keep_flags (fun _ => (1 : ℚ)) 1 = [true] :=
  claim_C9_amended (fun _ _ => (5 : ℤ)) 10 (fun _ => 1) (fun _ => 1)
    (by norm_num)
    ⟨⟨fun i => Or.inr rfl, fun c hc => absurd hc (List.not_mem_nil c)⟩,
     fun u hu => by
       rw [objValue_buildModel, objValue_buildModel]
       simp only [Finset.sum_range_one, one_mul]
       rcases hu.1 0 with h | h <;> norm_num [h]⟩

/-- C10: implicit export precondition.  The CSV export succeeds exactly when
the columns `H`, `H_m` and `W` are all present and fails with a
missing-column error otherwise, while weight selection also accepts a table
carrying only `H_m`; such a table passes weight selection (and hence reaches
optimization) but fails at export. -/
theorem claim_C10_export_precondition (t : TreeTable) :
    (exportCsv t = Except.ok () ↔
      (t.hasH = true ∧ t.hasHm = true ∧ t.hasW = true)) ∧
    ((t.hasH = false ∨ t.hasHm = false ∨ t.hasW = false) →
      exportCsv t = Except.error "missing column") ∧
    (∀ w hm : ℕ → ℚ,
      selectWeights ⟨false, true, false, w, hm⟩ = Except.ok hm ∧
      exportCsv ⟨false, true, false, w, hm⟩ = Except.error "missing column") := by
  obtain ⟨h1, h2, h3, w0, hm0⟩ := t
  refine ⟨?_, ?_, fun w hm => ⟨rfl, rfl⟩⟩
  · cases h1 <;> cases h2 <;> cases h3 <;> simp [exportCsv]
  · cases h1 <;> cases h2 <;> cases h3 <;> simp [exportCsv]

theorem claim_C10_witness :
    exportCsv ⟨false, true, false, fun _ => 0, fun _ => 7⟩ =
      Except.error "missing column" :=
  (claim_C10_export_precondition ⟨false, true, false, fun _ => 0, fun _ => 7⟩).2.1
    (Or.inl rfl)
